import Mathlib

/-!
Verification development for the financial_app repository.

The definitions below are a shallow embedding of the extraction-and-intent-
resolution core of the repository:

* `src/backend/llm_service.py` — `call_ollama`, `extract_expense_data`
  (its JSON-recovery + validation block), `generate_monthly_summary`;
* `src/telegram_bot.py` — `parse_report_intent`, `format_report`.

Python strings are modelled as `List Char`; Python decimal amounts as `ℚ`;
`json.loads` as a fuel-indexed recursive-descent parser over a `Json`
inductive; the network transport behind `requests.post` as an explicit
`TransportOutcome` oracle value.  Fallible Python code (raising exceptions)
is modelled with `Except`/`Option`.
-/

namespace FinApp

/-! ### Python string primitives (modelled on `List Char`) -/

/-- Characters treated as whitespace by Python `str.strip`, `str.split` and
the regex class `\s` (ASCII fragment, which covers all inputs of interest). -/
def pySpaceChars : List Char :=
  [' ', '\t', '\n', '\r', '\x0b', '\x0c']

/-- Membership in `pySpaceChars`. -/
def isPySpace (c : Char) : Bool :=
  pySpaceChars.contains c

/-- Python `str.strip()`: drop leading and trailing whitespace. -/
def pyStrip (s : List Char) : List Char :=
  ((s.dropWhile isPySpace).reverse.dropWhile isPySpace).reverse

/-- Python `str.lower()` (ASCII fragment). -/
def pyLower (s : List Char) : List Char :=
  s.map Char.toLower

/-- Python `str.find(c)`: index of the first occurrence of `c`, `-1` if absent. -/
def pyFind (s : List Char) (c : Char) : Int :=
  match List.findIdx? (fun x => x == c) s with
  | some i => (i : Int)
  | none => -1

/-- Python `str.rfind(c)`: index of the last occurrence of `c`, `-1` if absent. -/
def pyRfind (s : List Char) (c : Char) : Int :=
  match List.findIdx? (fun x => x == c) s.reverse with
  | some i => (s.length : Int) - 1 - (i : Int)
  | none => -1

/-- Python `str.isdigit()` (ASCII fragment): nonempty and all digits. -/
def pyIsDigit (s : List Char) : Bool :=
  !s.isEmpty && s.all Char.isDigit

/-- Python `int(s)` on a digit string. -/
def strToNat (s : List Char) : Nat :=
  s.foldl (fun a c => a * 10 + (c.toNat - 48)) 0

/-- Accumulator loop behind `pySplit`: `acc` holds the current word reversed. -/
def pySplitAux : List Char → List Char → List (List Char)
  | [], acc => if acc.isEmpty then [] else [acc.reverse]
  | c :: cs, acc =>
    if isPySpace c then
      if acc.isEmpty then pySplitAux cs [] else acc.reverse :: pySplitAux cs []
    else pySplitAux cs (c :: acc)

/-- Python `str.split()`: split on runs of whitespace, dropping empty pieces. -/
def pySplit (s : List Char) : List (List Char) :=
  pySplitAux s []

/-! ### JSON values and a model of Python `json.loads` -/

/-- JSON values as produced by Python `json.loads`; objects are insertion-
ordered key/value lists with Python-`dict` update semantics (see `objInsert`).
A numeric literal is kept as its exact decimal reading
`mantissa * 10 ^ exp10` (sign on the mantissa). -/
inductive Json where
  | str (s : List Char)
  | num (mantissa : Int) (exp10 : Int)
  | bool (b : Bool)
  | null
  | arr (xs : List Json)
  | obj (kvs : List (List Char × Json))

/-- Python `dict` assignment `d[k] = v`: replace in place if the key exists,
otherwise append. -/
def objInsert : List (List Char × Json) → List Char → Json → List (List Char × Json)
  | [], k, v => [(k, v)]
  | (k', v') :: rest, k, v =>
    if k' == k then (k, v) :: rest else (k', v') :: objInsert rest k v

/-- Python `dict.get`: value of the first (unique) matching key. -/
def dictGet : List (List Char × Json) → List Char → Option Json
  | [], _ => none
  | (k', v) :: rest, k => if k' == k then some v else dictGet rest k

/-- JSON whitespace skipped between tokens by `json.loads`. -/
def isJsonWs (c : Char) : Bool :=
  ([' ', '\t', '\n', '\r'] : List Char).contains c

/-- Value of a hex digit, if the character is one (codes 48–57 are the
digits, 97–102 lowercase `a`–`f`, 65–70 uppercase `A`–`F`). -/
def hexVal? (c : Char) : Option Nat :=
  let n := c.toNat
  if 48 ≤ n ∧ n ≤ 57 then some (n - 48)
  else if 97 ≤ n ∧ n ≤ 102 then some (n - 87)
  else if 65 ≤ n ∧ n ≤ 70 then some (n - 55)
  else none

/-- Table of the single-character JSON string escapes accepted by
`json.loads` (escape letter, decoded character). -/
def escTable : List (Char × Char) :=
  [('"', '"'), ('\\', '\\'), ('/', '/'), ('b', '\x08'), ('f', '\x0c'),
   ('n', '\n'), ('r', '\r'), ('t', '\t')]

/-- Decoded character of a single-character escape, if the letter is one. -/
def escChar? (c : Char) : Option Char :=
  (escTable.find? (fun q => q.1 == c)).map (fun q => q.2)

/-- Body of a JSON string literal after the opening quote: returns the decoded
characters and the remainder after the closing quote.  Raw control characters
are rejected, escapes are decoded, `\uXXXX` decodes four hex digits. -/
def parseStringBody : List Char → Option (List Char × List Char)
  | [] => none
  | c :: rest =>
    if c = '"' then some ([], rest)
    else if c = '\\' then
      match rest with
      | [] => none
      | e :: rest' =>
        if e = 'u' then
          match rest' with
          | h1 :: h2 :: h3 :: h4 :: rest'' =>
            match hexVal? h1, hexVal? h2, hexVal? h3, hexVal? h4 with
            | some a, some b, some c2, some d =>
              (parseStringBody rest'').map
                (fun p => (Char.ofNat (((a * 16 + b) * 16 + c2) * 16 + d) :: p.1, p.2))
            | _, _, _, _ => none
          | _ => none
        else
          match escChar? e with
          | some ch => (parseStringBody rest').map (fun p => (ch :: p.1, p.2))
          | none => none
    else if c.toNat < 32 then none
    else (parseStringBody rest).map (fun p => (c :: p.1, p.2))

/-- JSON number grammar (`-? (0 | [1-9][0-9]*) frac? exp?`) read exactly as a
decimal `mantissa * 10 ^ exp10`; returns the value and the remainder. -/
def parseNumber (s : List Char) : Option (Json × List Char) :=
  let signRes : Bool × List Char :=
    match s with
    | '-' :: r => (true, r)
    | _ => (false, s)
  let neg := signRes.1
  let s1 := signRes.2
  match s1 with
  | [] => none
  | c :: r =>
    if !c.isDigit then none
    else
      let intDigits : List Char :=
        if c = '0' then [c] else c :: r.takeWhile Char.isDigit
      let afterInt : List Char :=
        if c = '0' then r else r.dropWhile Char.isDigit
      let fracRes : Option (List Char × List Char) :=
        match afterInt with
        | '.' :: r2 =>
          let ds := r2.takeWhile Char.isDigit
          if ds.isEmpty then none else some (ds, r2.dropWhile Char.isDigit)
        | _ => some ([], afterInt)
      match fracRes with
      | none => none
      | some (fracDigits, afterFrac) =>
        let expRes : Option (Int × List Char) :=
          match afterFrac with
          | e :: r3 =>
            if e == 'e' || e == 'E' then
              let signRes2 : Bool × List Char :=
                match r3 with
                | '+' :: r4 => (false, r4)
                | '-' :: r4 => (true, r4)
                | _ => (false, r3)
              let ds := signRes2.2.takeWhile Char.isDigit
              if ds.isEmpty then none
              else
                let ev : Int := (strToNat ds : Int)
                some (if signRes2.1 then -ev else ev, signRes2.2.dropWhile Char.isDigit)
            else some (0, afterFrac)
          | [] => some (0, afterFrac)
        match expRes with
        | none => none
        | some (ex, rest) =>
          let mag : Int := (strToNat (intDigits ++ fracDigits) : Int)
          let mantissa : Int := if neg then -mag else mag
          some (Json.num mantissa (ex - (fracDigits.length : Int)), rest)

mutual

/-- Recursive-descent JSON value parser (model of `json.loads`'s scanner);
`fuel` strictly decreases on every nested call and is initialised to more than
the input length, which every concrete parse needs at most. -/
def parseValue : Nat → List Char → Option (Json × List Char)
  | 0, _ => none
  | fuel + 1, s =>
    let s0 := s.dropWhile isJsonWs
    match s0 with
    | '{' :: r =>
      let r1 := r.dropWhile isJsonWs
      match r1 with
      | '}' :: r2 => some (Json.obj [], r2)
      | _ => parseMembers fuel r1 []
    | '[' :: r =>
      let r1 := r.dropWhile isJsonWs
      match r1 with
      | ']' :: r2 => some (Json.arr [], r2)
      | _ => parseElems fuel r1 []
    | '"' :: r => (parseStringBody r).map (fun p => (Json.str p.1, p.2))
    | 't' :: 'r' :: 'u' :: 'e' :: r => some (Json.bool true, r)
    | 'f' :: 'a' :: 'l' :: 's' :: 'e' :: r => some (Json.bool false, r)
    | 'n' :: 'u' :: 'l' :: 'l' :: r => some (Json.null, r)
    | _ => parseNumber s0

/-- Members of a JSON object after the opening brace (non-empty case). -/
def parseMembers : Nat → List Char → List (List Char × Json) → Option (Json × List Char)
  | 0, _, _ => none
  | fuel + 1, s, acc =>
    match s.dropWhile isJsonWs with
    | '"' :: r =>
      match parseStringBody r with
      | none => none
      | some (key, r1) =>
        match r1.dropWhile isJsonWs with
        | ':' :: r2 =>
          match parseValue fuel r2 with
          | none => none
          | some (v, r3) =>
            let acc' := objInsert acc key v
            match r3.dropWhile isJsonWs with
            | ',' :: r4 => parseMembers fuel r4 acc'
            | '}' :: r4 => some (Json.obj acc', r4)
            | _ => none
        | _ => none
    | _ => none

/-- Elements of a JSON array after the opening bracket (non-empty case). -/
def parseElems : Nat → List Char → List Json → Option (Json × List Char)
  | 0, _, _ => none
  | fuel + 1, s, acc =>
    match parseValue fuel s with
    | none => none
    | some (v, r) =>
      match r.dropWhile isJsonWs with
      | ',' :: r2 => parseElems fuel r2 (acc ++ [v])
      | ']' :: r2 => some (Json.arr (acc ++ [v]), r2)
      | _ => none

end

/-- Model of Python `json.loads`: parse one value and require only whitespace
after it (otherwise `loads` raises, modelled as `none`). -/
def json_loads (s : List Char) : Option Json :=
  match parseValue (s.length + 1) s with
  | none => none
  | some (v, rest) => if (rest.dropWhile isJsonWs).isEmpty then some v else none

/-! ### Extraction Validator (`extract_expense_data`, `src/backend/llm_service.py`) -/

/-- Classified failures of the validation block of `extract_expense_data`.
In the source every failure becomes one `ValueError` whose message embeds the
distinct inner cause and, after `\x0aResponse: `, the raw response text; the
constructors record the cause and each carries that raw response. -/
inductive ExtractError where
  | noJsonFound (response : List Char)
  | malformedJson (response : List Char)
  | missingField (response : List Char)
  | notADict (response : List Char)
deriving DecidableEq

/-- The four required fields checked by `extract_expense_data`. -/
def requiredFields : List (List Char) :=
  ["date".toList, "category".toList, "amount".toList, "currency".toList]

/-- Key membership `k in data` for a parsed JSON object. -/
def hasKey (kvs : List (List Char × Json)) (k : List Char) : Bool :=
  kvs.any (fun kv => kv.1 == k)

/-- The span `response[start:end]` selected by `extract_expense_data`, from
`start = response.find` of the first opening brace to `end = response.rfind`
of the last closing brace plus one (Python slice semantics). -/
def jsonSpan (response : List Char) : List Char :=
  (response.take (pyRfind response '}' + 1).toNat).drop (pyFind response '{').toNat

/-- JSON-recovery and validation block of `extract_expense_data`
(`src/backend/llm_service.py` lines 59–79), applied to the raw model response:
locate a span from the first `\x7b` to the last `\x7d`, `json.loads` it, and
require the four fields to be present.  No type or format validation is
performed on the field values. -/
def validate (response : List Char) : Except ExtractError Json :=
  if pyFind response '{' = -1 ∨ pyRfind response '}' + 1 = 0 then
    .error (.noJsonFound response)
  else
    match json_loads (jsonSpan response) with
    | none => .error (.malformedJson response)
    | some (Json.obj kvs) =>
      if requiredFields.all (fun k => hasKey kvs k) then .ok (Json.obj kvs)
      else .error (.missingField response)
    | some _ => .error (.notADict response)

/-! ### Model Gateway (`call_ollama`, `src/backend/llm_service.py`) -/

/-- Outcome of the transport call `requests.post(..., timeout=60)` followed by
`raise_for_status()` and `response.json()`, supplied as an oracle value. -/
inductive TransportOutcome where
  | timeout
  | connectionError
  | httpError (status : Nat)
  | bodyNotJson
  | success (body : Json)

/-- The single error shape produced by `call_ollama`: every exception `e` is
re-raised as `Exception("Ollama API error: " + str(e))`. -/
inductive OllamaError where
  | apiError (message : List Char)
deriving DecidableEq

/-- Wrap an underlying cause the way `call_ollama`'s handler does. -/
def ollamaApiError (cause : List Char) : OllamaError :=
  .apiError ("Ollama API error: ".toList ++ cause)

/-- Model of `str(e)` for each failing transport outcome (the concrete wording
comes from the `requests` library; only its presence matters here). -/
def transportCause : TransportOutcome → List Char
  | .timeout => "read timed out".toList
  | .connectionError => "failed to establish a new connection".toList
  | .httpError st => "http status error ".toList ++ Nat.toDigits 10 st
  | .bodyNotJson => "expecting value".toList
  | .success _ => []

/-- `call_ollama` (`src/backend/llm_service.py` lines 37–51): on any transport
failure raise one generic classified error; on success return
`response.json().get("response", "").strip()` — a body without the `response`
key yields the empty string as a successful result. -/
def call_ollama : TransportOutcome → Except OllamaError (List Char)
  | .timeout => .error (ollamaApiError (transportCause .timeout))
  | .connectionError => .error (ollamaApiError (transportCause .connectionError))
  | .httpError st => .error (ollamaApiError (transportCause (.httpError st)))
  | .bodyNotJson => .error (ollamaApiError (transportCause .bodyNotJson))
  | .success body =>
    match body with
    | Json.obj kvs =>
      match dictGet kvs ("response".toList) with
      | some (Json.str s) => .ok (pyStrip s)
      | some _ => .error (ollamaApiError ("strip is not an attribute".toList))
      | none => .ok (pyStrip [])
    | _ => .error (ollamaApiError ("get is not an attribute".toList))

/-- `extract_expense_data` end to end: the transport/gateway stage, then the
validation block; a gateway failure propagates before the `try` block. -/
def extract_expense_data (out : TransportOutcome) : Except (OllamaError ⊕ ExtractError) Json :=
  match call_ollama out with
  | .error e => .error (.inl e)
  | .ok response =>
    match validate response with
    | .error e => .error (.inr e)
    | .ok d => .ok d

/-! ### Report Intent Resolver (`parse_report_intent`, `src/telegram_bot.py`) -/

/-- The current date as observed by `datetime.now()`, passed explicitly. -/
structure NowDate where
  year : Nat
  month : Nat
deriving DecidableEq

/-- The bare trigger phrases of `parse_report_intent`. -/
def triggerPhrases : List (List Char) :=
  ["report".toList, "summary".toList, "monthly report".toList,
   "monthly summary".toList, "report this month".toList]

/-- `MONTH_ABBREV` from `src/telegram_bot.py`. -/
def MONTH_ABBREV : List (List Char × Nat) :=
  [("jan".toList, 1), ("feb".toList, 2), ("mar".toList, 3), ("apr".toList, 4),
   ("may".toList, 5), ("jun".toList, 6), ("jul".toList, 7), ("aug".toList, 8),
   ("sep".toList, 9), ("oct".toList, 10), ("nov".toList, 11), ("dec".toList, 12)]

/-- `MONTH_NAMES` from `src/telegram_bot.py`: lowercased `calendar.month_name`. -/
def MONTH_NAMES : List (List Char × Nat) :=
  [("january".toList, 1), ("february".toList, 2), ("march".toList, 3),
   ("april".toList, 4), ("may".toList, 5), ("june".toList, 6),
   ("july".toList, 7), ("august".toList, 8), ("september".toList, 9),
   ("october".toList, 10), ("november".toList, 11), ("december".toList, 12)]

/-- Lookup in one of the month tables. -/
def monthLookup : List (List Char × Nat) → List Char → Option Nat
  | [], _ => none
  | (k, v) :: rest, p => if k == p then some v else monthLookup rest p

/-- Semantics of the tail `\s+(.+)$` of the regex
`(?:report|summary)\s+(.+)$` applied to what follows the keyword: at least one
whitespace character, then a nonempty group that cannot contain a newline
(`.` does not match `\x0a`; `$` also matches just before one trailing
newline).  Returns `group(1)`. -/
def matchTail (remaining : List Char) : Option (List Char) :=
  let w := remaining.takeWhile isPySpace
  let r := remaining.dropWhile isPySpace
  if w.isEmpty then none
  else if r.isEmpty then
    let w' := if w.getLast? == some '\n' then w.dropLast else w
    match w'.getLast? with
    | some c => if c == '\n' then none else some [c]
    | none => none
  else
    let r' := if r.getLast? == some '\n' then r.dropLast else r
    if r'.isEmpty then none
    else if r'.any (fun c => c == '\n') then none
    else some r'

/-- Semantics of `re.match(r"(?:report|summary)\s+(.+)$", t)`: the keyword at
the start of the string, then `matchTail`. -/
def reMatchReportSummary (t : List Char) : Option (List Char) :=
  if ("report".toList).isPrefixOf t then matchTail (t.drop 6)
  else if ("summary".toList).isPrefixOf t then matchTail (t.drop 7)
  else none

/-- Semantics of the numeric-date regex match of `parse_report_intent`:
four digits `\d{4}`, a separator (dash or slash), then `\d{1,2}` greedy
(one or two digits), with no end anchor. -/
def dmMatch (rest : List Char) : Option (Nat × Nat) :=
  match rest with
  | a :: b :: c :: d :: sep :: e :: rs =>
    if a.isDigit && b.isDigit && c.isDigit && d.isDigit &&
       (sep == '-' || sep == '/') && e.isDigit then
      let y := strToNat [a, b, c, d]
      match rs with
      | f :: _ =>
        if f.isDigit then some (y, strToNat [e, f]) else some (y, strToNat [e])
      | [] => some (y, strToNat [e])
    else none
  | _ => none

/-- One iteration of the token loop of `parse_report_intent`
(state is the pair `(year, month)`); assignments overwrite the state. -/
def scanTok (st : Nat × Option Nat) (p : List Char) : Nat × Option Nat :=
  if pyIsDigit p then
    let y := strToNat p
    if 2000 ≤ y ∧ y ≤ 2100 then (y, st.2)
    else if 1 ≤ y ∧ y ≤ 12 then (st.1, some y)
    else st
  else
    match monthLookup MONTH_ABBREV p with
    | some m => (st.1, some m)
    | none =>
      match monthLookup MONTH_NAMES p with
      | some m => (st.1, some m)
      | none => st

/-- `parse_report_intent` (`src/telegram_bot.py` lines 136–181).  Returns
`some (year, month)` for `return year, month` and `none` for
`return None, None`. -/
def parse_report_intent (now : NowDate) (text : List Char) : Option (Nat × Nat) :=
  let t := pyLower (pyStrip text)
  if t = [] ∨ t ∈ triggerPhrases then some (now.year, now.month)
  else
    match reMatchReportSummary t with
    | none => none
    | some g =>
      let rest := pyStrip g
      match dmMatch rest with
      | some (y, m) => if 1 ≤ m ∧ m ≤ 12 then some (y, m) else none
      | none =>
        let parts := pySplit rest
        let st := parts.foldl scanTok (now.year, none)
        let month : Option Nat :=
          match st.2 with
          | some m => some m
          | none =>
            if pyIsDigit rest ∧ 1 ≤ strToNat rest ∧ strToNat rest ≤ 12 then
              some (strToNat rest)
            else none
        match month with
        | some m => if 1 ≤ m ∧ m ≤ 12 then some (st.1, m) else none
        | none => none

/-! ### Report Aggregator/Formatter (`format_report`, `src/telegram_bot.py`) -/

/-- An expense record as consumed by `format_report` and
`generate_monthly_summary` (amounts as exact decimals in `ℚ`). -/
structure ExpenseEntry where
  date : List Char
  category : List Char
  currency : List Char
  amount : ℚ
deriving DecidableEq

/-- Python `by_cat[c] = by_cat.get(c, 0) + amount` on an insertion-ordered
dict represented as an association list. -/
def dictAdd : List (List Char × ℚ) → List Char → ℚ → List (List Char × ℚ)
  | [], k, v => [(k, v)]
  | (k', v') :: rest, k, v =>
    if k' == k then (k', v' + v) :: rest else (k', v') :: dictAdd rest k v

/-- The `by_cat` accumulation loop of `format_report`. -/
def by_cat (expenses : List ExpenseEntry) : List (List Char × ℚ) :=
  expenses.foldl (fun d e => dictAdd d e.category e.amount) []

/-- Comparator of `sorted(by_cat.items(), key=lambda x: -x[1])`: Python's
stable ascending sort on key `-total`, i.e. descending on the total. -/
def descByTotal (a b : List Char × ℚ) : Bool :=
  decide (b.2 ≤ a.2)

/-- The aggregate figures computed by `format_report`
(`src/telegram_bot.py` lines 184–210): grand total and top-5 category list.
String rendering of the message lines is omitted; the claims concern the
computed quantities. -/
structure Report where
  total_amount : ℚ
  top : List (List Char × ℚ)
deriving DecidableEq

/-- Aggregation part of `format_report`. -/
def format_report (expenses : List ExpenseEntry) : Report :=
  { total_amount := (expenses.map (fun e => e.amount)).sum
    top := ((by_cat expenses).mergeSort descByTotal).take 5 }

/-! ### Monthly summary (`generate_monthly_summary`, `src/backend/llm_service.py`) -/

/-- Two-decimal rendering of an amount (model of Python `f"{x:.2f}"`;
ties of the underlying binary-float rounding are approximated by
round-to-nearest). -/
def fmtAmount2 (q : ℚ) : List Char :=
  let c : Int := round (q * 100)
  let sign : List Char := if c < 0 then ['-'] else []
  let n := c.natAbs
  let d := n % 100
  sign ++ Nat.toDigits 10 (n / 100) ++ ['.'] ++
    (if d < 10 then '0' :: Nat.toDigits 10 d else Nat.toDigits 10 d)

/-- One line of the expense summary fed to the analytics prompt. -/
def expenseLine (e : ExpenseEntry) : List Char :=
  "- ".toList ++ e.date ++ ": ".toList ++ e.category ++ " - ".toList ++
    e.currency ++ " ".toList ++ fmtAmount2 e.amount

/-- Python `"\x0a".join`. -/
def joinNl : List (List Char) → List Char
  | [] => []
  | [x] => x
  | x :: y :: xs => x ++ '\n' :: joinNl (y :: xs)

/-- Text of `ANALYTICS_PROMPT` before the `expense_data` placeholder. -/
def ANALYTICS_PROMPT_pre : List Char :=
  ("You are a financial analytics assistant. Analyze the following monthly expenses and provide insights.\n\nMonthly Data:\n").toList

/-- Text of `ANALYTICS_PROMPT` after the `expense_data` placeholder. -/
def ANALYTICS_PROMPT_post : List Char :=
  ("\n\nProvide a summary including:\n1. Total spending by category\n2. Highest expense category\n3. Total monthly spending\n4. Any notable spending patterns or recommendations\n\nBe concise and actionable.").toList

/-- `generate_monthly_summary` (`src/backend/llm_service.py` lines 82–94),
with the Model Gateway `call_ollama` abstracted as the oracle `gw`
(prompt and temperature): an empty expense list short-circuits before the
gateway is consulted. -/
def generate_monthly_summary
    (gw : List Char → ℚ → Except OllamaError (List Char))
    (expenses : List ExpenseEntry) : Except OllamaError (List Char) :=
  if expenses.isEmpty then .ok ("No expenses found for this month.".toList)
  else
    let expense_summary := joinNl (expenses.map expenseLine)
    gw (ANALYTICS_PROMPT_pre ++ expense_summary ++ ANALYTICS_PROMPT_post) (1 / 2)

/-! ### Statement helpers -/

/-- Classification of a remainder token that the loop of `parse_report_intent`
treats as a month: a digit string in `[1,12]`, a 3-letter abbreviation, or a
full month name. -/
def monthTokVal (p : List Char) : Option Nat :=
  if pyIsDigit p then
    let y := strToNat p
    if 2000 ≤ y ∧ y ≤ 2100 then none
    else if 1 ≤ y ∧ y ≤ 12 then some y
    else none
  else
    match monthLookup MONTH_ABBREV p with
    | some m => some m
    | none => monthLookup MONTH_NAMES p

/-- Classification of a remainder token that the loop of `parse_report_intent`
treats as a year override: a digit string in `[2000,2100]`. -/
def yearTokVal (p : List Char) : Option Nat :=
  if pyIsDigit p ∧ 2000 ≤ strToNat p ∧ strToNat p ≤ 2100 then some (strToNat p)
  else none

/-- Total recorded for category `c` in an aggregation dict, `0` if absent
(Python `by_cat.get(c, 0)`). -/
def catTotal (d : List (List Char × ℚ)) (c : List Char) : ℚ :=
  match d with
  | [] => 0
  | (k, v) :: rest => if k == c then v else catTotal rest c

/-! ### Helper lemmas about the Python primitives -/

theorem findIdx?_isSome_of_mem {s : List Char} {c : Char} (h : c ∈ s) :
    (List.findIdx? (fun x => x == c) s).isSome := by
  cases hf : List.findIdx? (fun x => x == c) s with
  | some i => rfl
  | none =>
    have := List.findIdx?_eq_none_iff.mp hf c h
    simp at this

theorem pyFind_eq_neg_one {s : List Char} {c : Char} (h : c ∉ s) :
    pyFind s c = -1 := by
  have hn : List.findIdx? (fun x => x == c) s = none := by
    rw [List.findIdx?_eq_none_iff]
    intro x hx
    simp only [beq_eq_false_iff_ne]
    exact fun he => h (he ▸ hx)
  simp [pyFind, hn]

theorem pyFind_mem_of_ne {s : List Char} {c : Char} (h : pyFind s c ≠ -1) :
    c ∈ s := by
  by_contra hm
  exact h (pyFind_eq_neg_one hm)

theorem pyRfind_eq_neg_one {s : List Char} {c : Char} (h : c ∉ s) :
    pyRfind s c = -1 := by
  have hn : List.findIdx? (fun x => x == c) s.reverse = none := by
    rw [List.findIdx?_eq_none_iff]
    intro x hx
    simp only [beq_eq_false_iff_ne]
    exact fun he => h (he ▸ (List.mem_reverse.mp hx))
  simp [pyRfind, hn]

theorem pyRfind_mem_of_ne {s : List Char} {c : Char} (h : pyRfind s c ≠ -1) :
    c ∈ s := by
  by_contra hm
  exact h (pyRfind_eq_neg_one hm)

theorem pyFind_nonneg {s : List Char} {c : Char} (h : c ∈ s) :
    0 ≤ pyFind s c := by
  have hs := findIdx?_isSome_of_mem h
  cases hf : List.findIdx? (fun x => x == c) s with
  | none => rw [hf] at hs; simp at hs
  | some i => simp [pyFind, hf]

theorem pyRfind_bounds {s : List Char} {c : Char} (h : c ∈ s) :
    0 ≤ pyRfind s c ∧ pyRfind s c < (s.length : Int) := by
  have hs := findIdx?_isSome_of_mem (List.mem_reverse.mpr h)
  cases hf : List.findIdx? (fun x => x == c) s.reverse with
  | none => rw [hf] at hs; simp at hs
  | some i =>
    have hlt : i < s.reverse.length :=
      (List.findIdx?_eq_some_iff_findIdx_eq.mp hf).1
    rw [List.length_reverse] at hlt
    simp only [pyRfind, hf]
    omega

theorem pyFind_lt_length {s : List Char} {c : Char} (h : c ∈ s) :
    pyFind s c < (s.length : Int) := by
  have hs := findIdx?_isSome_of_mem h
  cases hf : List.findIdx? (fun x => x == c) s with
  | none => rw [hf] at hs; simp at hs
  | some i =>
    have hlt : i < s.length :=
      (List.findIdx?_eq_some_iff_findIdx_eq.mp hf).1
    simp only [pyFind, hf]
    omega

theorem pyFind_append_left {t s : List Char} {c : Char} (h : c ∈ t) :
    pyFind (t ++ s) c = pyFind t c := by
  have hs := findIdx?_isSome_of_mem h
  cases hf : List.findIdx? (fun x => x == c) t with
  | none => rw [hf] at hs; simp at hs
  | some i =>
    simp [pyFind, List.findIdx?_append, hf, Option.or]

theorem pyFind_append_shift {p u : List Char} {c : Char} (hp : c ∉ p) (hu : c ∈ u) :
    pyFind (p ++ u) c = (p.length : Int) + pyFind u c := by
  have hpn : List.findIdx? (fun x => x == c) p = none := by
    rw [List.findIdx?_eq_none_iff]
    intro x hx
    simp only [beq_eq_false_iff_ne]
    exact fun he => hp (he ▸ hx)
  have hs := findIdx?_isSome_of_mem hu
  cases hf : List.findIdx? (fun x => x == c) u with
  | none => rw [hf] at hs; simp at hs
  | some i =>
    simp only [pyFind, List.findIdx?_append, hpn, hf, Option.or, Option.map]
    omega

theorem pyRfind_append_right {t s : List Char} {c : Char} (ht : c ∈ t) (hs : c ∉ s) :
    pyRfind (t ++ s) c = pyRfind t c := by
  have hsn : List.findIdx? (fun x => x == c) s.reverse = none := by
    rw [List.findIdx?_eq_none_iff]
    intro x hx
    simp only [beq_eq_false_iff_ne]
    exact fun he => hs (he ▸ (List.mem_reverse.mp hx))
  have htm := findIdx?_isSome_of_mem (List.mem_reverse.mpr ht)
  cases hf : List.findIdx? (fun x => x == c) t.reverse with
  | none => rw [hf] at htm; simp at htm
  | some i =>
    simp only [pyRfind, List.reverse_append, List.findIdx?_append, hsn, hf,
      Option.or, Option.map, List.length_append, List.length_reverse]
    omega

theorem pyRfind_append_shift {p u : List Char} {c : Char} (hu : c ∈ u) :
    pyRfind (p ++ u) c = (p.length : Int) + pyRfind u c := by
  have hum := findIdx?_isSome_of_mem (List.mem_reverse.mpr hu)
  cases hf : List.findIdx? (fun x => x == c) u.reverse with
  | none => rw [hf] at hum; simp at hum
  | some i =>
    cases hg : List.findIdx? (fun x => x == c) p.reverse with
    | none =>
      simp only [pyRfind, List.reverse_append, List.findIdx?_append, hf, hg,
        Option.or, Option.map, List.length_append, List.length_reverse]
      omega
    | some j =>
      simp only [pyRfind, List.reverse_append, List.findIdx?_append, hf, hg,
        Option.or, Option.map, List.length_append, List.length_reverse]
      omega

theorem jsonSpan_embed (p j s : List Char)
    (hp : '{' ∉ p) (hsb : '}' ∉ s)
    (h1 : '{' ∈ j) (h2 : '}' ∈ j) :
    jsonSpan (p ++ j ++ s) = jsonSpan j := by
  have hfind : pyFind (p ++ j ++ s) '{' = (p.length : Int) + pyFind j '{' := by
    rw [List.append_assoc, pyFind_append_shift hp (List.mem_append_left s h1),
      pyFind_append_left h1]
  have hrfind : pyRfind (p ++ j ++ s) '}' = (p.length : Int) + pyRfind j '}' := by
    rw [List.append_assoc,
      pyRfind_append_shift (List.mem_append_left s h2),
      pyRfind_append_right h2 hsb]
  have ha0 : 0 ≤ pyFind j '{' := pyFind_nonneg h1
  have hb := pyRfind_bounds (s := j) h2
  unfold jsonSpan
  rw [hfind, hrfind, List.append_assoc]
  have htn1 : ((p.length : Int) + pyRfind j '}' + 1).toNat
      = p.length + (pyRfind j '}' + 1).toNat := by omega
  have htn2 : ((p.length : Int) + pyFind j '{').toNat
      = p.length + (pyFind j '{').toNat := by omega
  rw [htn1, htn2]
  have hble : (pyRfind j '}' + 1).toNat ≤ j.length := by omega
  rw [List.take_append_eq_append_take, List.take_of_length_le (by omega),
    List.drop_append_eq_append_drop, List.drop_of_length_le (by omega)]
  have hsub : p.length + (pyRfind j '}' + 1).toNat - p.length
      = (pyRfind j '}' + 1).toNat := by omega
  have hsub2 : p.length + (pyFind j '{').toNat - p.length
      = (pyFind j '{').toNat := by omega
  rw [hsub, hsub2, List.take_append_of_le_length hble, List.nil_append]

/-- C2: for every payload `j` that the Extraction Validator accepts (so in
particular every valid embedded JSON payload, of any nesting and spanning any
number of lines), wrapping it in any brace-free prose prefix and suffix leaves
the accepted ExpenseCandidate unchanged:
`validate (p ++ j ++ s) = validate j` on the success path. -/
theorem C2_embedding_invariance (p j s : List Char) (d : Json)
    (hp : ∀ c ∈ p, c ≠ '{' ∧ c ≠ '}')
    (hs : ∀ c ∈ s, c ≠ '{' ∧ c ≠ '}')
    (hj : validate j = .ok d) :
    validate (p ++ j ++ s) = .ok d := by
  unfold validate at hj ⊢
  by_cases hc : pyFind j '{' = -1 ∨ pyRfind j '}' + 1 = 0
  · rw [if_pos hc] at hj
    exact absurd hj (by simp)
  · rw [if_neg hc] at hj
    push_neg at hc
    have h1 : '{' ∈ j := pyFind_mem_of_ne hc.1
    have h2 : '}' ∈ j := by
      apply pyRfind_mem_of_ne
      intro h
      rw [h] at hc
      exact hc.2 (by norm_num)
    have hp' : '{' ∉ p := fun hmem => (hp _ hmem).1 rfl
    have hs' : '}' ∉ s := fun hmem => (hs _ hmem).2 rfl
    have hspan := jsonSpan_embed p j s hp' hs' h1 h2
    have hfind : ¬ pyFind (p ++ j ++ s) '{' = -1 := by
      rw [List.append_assoc, pyFind_append_shift hp' (List.mem_append_left s h1),
        pyFind_append_left h1]
      have := pyFind_nonneg h1
      omega
    have hrf : ¬ pyRfind (p ++ j ++ s) '}' + 1 = 0 := by
      rw [List.append_assoc, pyRfind_append_shift (List.mem_append_left s h2),
        pyRfind_append_right h2 hs']
      have := (pyRfind_bounds h2).1
      omega
    rw [if_neg (by push_neg; exact ⟨hfind, hrf⟩), hspan]
    cases hl : json_loads (jsonSpan j) with
    | none =>
      rw [hl] at hj
      simp at hj
    | some v =>
      rw [hl] at hj
      cases v with
      | obj kvs =>
        by_cases hreq : requiredFields.all (fun k => hasKey kvs k) = true
        · simp only [hreq, if_true] at hj ⊢
          exact hj
        · simp only [Bool.not_eq_true] at hreq
          simp only [hreq, Bool.false_eq_true, if_false] at hj
          exact absurd hj (by simp)
      | str s2 => exact absurd hj (by simp)
      | num q => exact absurd hj (by simp)
      | bool b => exact absurd hj (by simp)
      | null => exact absurd hj (by simp)
      | arr xs => exact absurd hj (by simp)

/-- Witness for C2 at a concrete prose-wrapped payload. -/
theorem C2_embedding_invariance_witness :
    validate (("Sure, here is the JSON you asked for:\n".toList) ++
        ("\x7b\"date\": \"2025-01-02\", \"category\": \"food\", \"amount\": 12, \"currency\": \"USD\"\x7d".toList) ++
        ("\nLet me know if you need anything else.".toList)) =
      .ok (Json.obj
        [("date".toList, Json.str ("2025-01-02".toList)),
         ("category".toList, Json.str ("food".toList)),
         ("amount".toList, Json.num 12 0),
         ("currency".toList, Json.str ("USD".toList))]) :=
  C2_embedding_invariance _ _ _ _ (by decide) (by decide) (by rfl)

/-- C9: a model response containing no opening and no closing brace fails the
validator with the no-JSON-found classification, and the raw response text is
carried on the error. -/
theorem C9_no_braces_noJsonFound (response : List Char)
    (h1 : '{' ∉ response) (_h2 : '}' ∉ response) :
    validate response = .error (.noJsonFound response) := by
  unfold validate
  rw [if_pos (Or.inl (pyFind_eq_neg_one h1))]

/-- Witness for C9 at a concrete brace-free response. -/
theorem C9_no_braces_noJsonFound_witness :
    validate ("I cannot extract an expense from that.".toList) =
      .error (.noJsonFound ("I cannot extract an expense from that.".toList)) :=
  C9_no_braces_noJsonFound _ (by decide) (by decide)

/-- C10: a response containing at least one opening and one closing brace is
never classified as no-JSON-found; when the first opening brace comes after
the last closing brace the selected slice is empty and the failure is the
JSON-parse (malformed) classification. -/
theorem C10_braces_never_noJsonFound (response : List Char)
    (h1 : '{' ∈ response) (h2 : '}' ∈ response) :
    validate response ≠ .error (.noJsonFound response) ∧
    (pyRfind response '}' < pyFind response '{' →
      validate response = .error (.malformedJson response)) := by
  have ha := pyFind_nonneg h1
  have hb := (pyRfind_bounds h2).1
  have hcond : ¬ (pyFind response '{' = -1 ∨ pyRfind response '}' + 1 = 0) := by
    push_neg
    constructor <;> omega
  constructor
  · unfold validate
    rw [if_neg hcond]
    cases hl : json_loads (jsonSpan response) with
    | none => simp
    | some v =>
      cases v with
      | obj kvs =>
        dsimp only
        split <;> simp
      | str s2 => simp
      | num q => simp
      | bool b => simp
      | null => simp
      | arr xs => simp
  · intro hlt
    have hspan : jsonSpan response = [] := by
      unfold jsonSpan
      apply List.drop_of_length_le
      calc (response.take (pyRfind response '}' + 1).toNat).length
          ≤ (pyRfind response '}' + 1).toNat := List.length_take_le _ _
        _ ≤ (pyFind response '{').toNat := by omega
    unfold validate
    rw [if_neg hcond, hspan]
    rfl

/-- Witness for C10 at the concrete response where the braces are reversed. -/
theorem C10_braces_never_noJsonFound_witness :
    validate ("\x7d no object here \x7b".toList) =
      .error (.malformedJson ("\x7d no object here \x7b".toList)) ∧
    validate ("\x7d no object here \x7b".toList) ≠
      .error (.noJsonFound ("\x7d no object here \x7b".toList)) :=
  ⟨(C10_braces_never_noJsonFound _ (by decide) (by decide)).2 (by decide),
   (C10_braces_never_noJsonFound _ (by decide) (by decide)).1⟩

/-- Counterexample to C1 as stated: a parsed object whose `category` is the
empty string and whose `amount` is the non-numeric string `abc` is accepted
and returned, not rejected — only presence of the four keys is checked. -/
theorem C1_counterexample :
    validate ("\x7b\"date\": \"2025-01-01\", \"category\": \"\", \"amount\": \"abc\", \"currency\": \"USD\"\x7d".toList) =
      .ok (Json.obj
        [("date".toList, Json.str ("2025-01-01".toList)),
         ("category".toList, Json.str []),
         ("amount".toList, Json.str ("abc".toList)),
         ("currency".toList, Json.str ("USD".toList))]) := rfl

/-- C1 amended: whenever the selected brace-to-brace span parses as a JSON
object, the validator accepts and returns it exactly when all four required
keys are present; the amount's numericness and the category's non-emptiness
are not validated. -/
theorem C1_presence_only_validation (response : List Char)
    (kvs : List (List Char × Json))
    (h1 : ¬ pyFind response '{' = -1) (h2 : ¬ pyRfind response '}' + 1 = 0)
    (hspan : json_loads (jsonSpan response) = some (Json.obj kvs)) :
    validate response =
      if requiredFields.all (fun k => hasKey kvs k) then .ok (Json.obj kvs)
      else .error (.missingField response) := by
  unfold validate
  rw [if_neg (by push_neg; exact ⟨h1, h2⟩), hspan]

/-- Witness for the amended C1 at a response missing two required fields. -/
theorem C1_presence_only_validation_witness :
    validate ("\x7b\"date\": \"2025-01-01\", \"amount\": \"7\"\x7d".toList) =
      if requiredFields.all
          (fun k => hasKey
            [("date".toList, Json.str ("2025-01-01".toList)),
             ("amount".toList, Json.str ("7".toList))] k) then
        .ok (Json.obj
          [("date".toList, Json.str ("2025-01-01".toList)),
           ("amount".toList, Json.str ("7".toList))])
      else .error (.missingField ("\x7b\"date\": \"2025-01-01\", \"amount\": \"7\"\x7d".toList)) :=
  C1_presence_only_validation _ _ (by decide) (by decide) (by rfl)

/-- Counterexample to C3 as stated: a backend response that lacks the expected
`response` field is a successful empty-string result of the gateway, not a
classified `BackendProtocolError`. -/
theorem C3_counterexample :
    call_ollama (.success (Json.obj [])) = .ok [] ∧
    ∀ e : OllamaError, call_ollama (.success (Json.obj [])) ≠ .error e := by
  refine ⟨rfl, ?_⟩
  intro e h
  rw [show call_ollama (.success (Json.obj [])) = .ok [] from rfl] at h
  exact Except.noConfusion h

/-- C3 amended: every transport failure of the gateway — unreachable backend,
timeout, bad HTTP status — surfaces as the one generic classified error
(`Ollama API error: ` with the raw cause appended), so a timeout is not
distinguishable from an unavailable backend by error class; and a backend
response missing the expected field is a success carrying the empty string. -/
theorem C3_single_error_class :
    call_ollama .timeout = .error (ollamaApiError (transportCause .timeout)) ∧
    call_ollama .connectionError =
      .error (ollamaApiError (transportCause .connectionError)) ∧
    (∀ st, call_ollama (.httpError st) =
      .error (ollamaApiError (transportCause (.httpError st)))) ∧
    call_ollama (.success (Json.obj [])) = .ok [] ∧
    (∀ s2, call_ollama (.success (Json.obj [("response".toList, Json.str s2)])) =
      .ok (pyStrip s2)) :=
  ⟨rfl, rfl, fun _ => rfl, rfl, fun _ => rfl⟩

/-- C8: the monthly summary on an empty record list returns the fixed
zero-activity message for every possible gateway, hence depends on no gateway
invocation at all. -/
theorem C8_empty_skips_gateway :
    (∀ gw, generate_monthly_summary gw [] =
      .ok ("No expenses found for this month.".toList)) ∧
    (∀ gw gw', generate_monthly_summary gw [] = generate_monthly_summary gw' []) :=
  ⟨fun _ => rfl, fun _ _ => rfl⟩

/-! ### Lemmas about the token loop of `parse_report_intent` -/

theorem scanTok_month {p : List Char} {m : Nat} (h : monthTokVal p = some m)
    (st : Nat × Option Nat) : scanTok st p = (st.1, some m) := by
  unfold monthTokVal at h
  unfold scanTok
  by_cases hd : pyIsDigit p = true
  · simp only [hd, if_true] at h ⊢
    by_cases h1 : 2000 ≤ strToNat p ∧ strToNat p ≤ 2100
    · simp only [h1, if_true] at h
      exact absurd h (by simp)
    · simp only [h1, if_false] at h ⊢
      by_cases h2 : 1 ≤ strToNat p ∧ strToNat p ≤ 12
      · simp only [h2, if_true] at h ⊢
        cases h
        rfl
      · simp only [h2, if_false] at h
        exact absurd h (by simp)
  · simp only [Bool.not_eq_true] at hd
    simp only [hd, Bool.false_eq_true, if_false] at h ⊢
    cases ha : monthLookup MONTH_ABBREV p with
    | some v =>
      simp only [ha] at h ⊢
      cases h
      rfl
    | none =>
      simp only [ha] at h ⊢
      cases hn : monthLookup MONTH_NAMES p with
      | some v =>
        simp only [hn] at h ⊢
        cases h
        rfl
      | none =>
        simp only [hn] at h
        exact absurd h (by simp)

theorem scanTok_year {p : List Char} {yv : Nat} (h : yearTokVal p = some yv)
    (st : Nat × Option Nat) : scanTok st p = (yv, st.2) := by
  unfold yearTokVal at h
  unfold scanTok
  by_cases hc : pyIsDigit p ∧ 2000 ≤ strToNat p ∧ strToNat p ≤ 2100
  · simp only [hc, if_true] at h
    cases h
    simp only [hc.1, if_true, hc.2, and_self]
  · simp only [hc, if_false] at h
    exact absurd h (by simp)

/-- Counterexample to C4 as stated: in `report feb mar` the later month token
overrides the earlier one — the resolved month is 3 (March), not 2. -/
theorem C4_counterexample :
    parse_report_intent ⟨2024, 6⟩ ("report feb mar".toList) = some (2024, 3) ∧
    some ((2024 : Nat), (3 : Nat)) ≠ some ((2024 : Nat), (2 : Nat)) :=
  ⟨rfl, by decide⟩

/-- C4 amended: in the token loop of the Report Intent Resolver, later tokens
override earlier ones of the same kind — the last valid month token and the
last valid year token win; in particular `report mar feb` resolves to
February. -/
theorem C4_last_token_wins :
    (∀ (st : Nat × Option Nat) (ps : List (List Char)) (p : List Char) (m : Nat),
        monthTokVal p = some m →
        (List.foldl scanTok st (ps ++ [p])).2 = some m) ∧
    (∀ (st : Nat × Option Nat) (ps : List (List Char)) (p : List Char) (yv : Nat),
        yearTokVal p = some yv →
        (List.foldl scanTok st (ps ++ [p])).1 = yv) ∧
    parse_report_intent ⟨2024, 6⟩ ("report mar feb".toList) = some (2024, 2) := by
  refine ⟨?_, ?_, rfl⟩
  · intro st ps p m h
    rw [List.foldl_append, List.foldl_cons, List.foldl_nil, scanTok_month h]
  · intro st ps p yv h
    rw [List.foldl_append, List.foldl_cons, List.foldl_nil, scanTok_year h]

/-- Witness for the amended C4 on concrete token lists. -/
theorem C4_last_token_wins_witness :
    (List.foldl scanTok (2024, none) (["mar".toList] ++ ["feb".toList])).2 = some 2 ∧
    (List.foldl scanTok (1999, none) (["2024".toList] ++ ["2025".toList])).1 = 2025 :=
  ⟨C4_last_token_wins.1 _ _ _ _ (by rfl),
   C4_last_token_wins.2.1 _ _ _ _ (by rfl)⟩

/-- Counterexample to C5 as stated: the empty message resolves to the current
(year, month), not to NotAReport. -/
theorem C5_counterexample :
    parse_report_intent ⟨2024, 6⟩ [] = some (2024, 6) ∧
    some ((2024 : Nat), (6 : Nat)) ≠ (none : Option (Nat × Nat)) :=
  ⟨rfl, by decide⟩

/-- C5 amended: after lowercasing and trimming, the resolver returns the
current (year, month) when the normalized text is empty or one of the five
bare trigger phrases; and any other text on which the keyword-plus-remainder
match fails resolves to NotAReport. -/
theorem C5_trigger_and_reject (now : NowDate) (text : List Char) :
    (pyLower (pyStrip text) = [] ∨ pyLower (pyStrip text) ∈ triggerPhrases →
      parse_report_intent now text = some (now.year, now.month)) ∧
    (¬ (pyLower (pyStrip text) = [] ∨ pyLower (pyStrip text) ∈ triggerPhrases) →
      reMatchReportSummary (pyLower (pyStrip text)) = none →
      parse_report_intent now text = none) := by
  constructor
  · intro h
    unfold parse_report_intent
    rw [if_pos h]
  · intro h hre
    unfold parse_report_intent
    rw [if_neg h, hre]

/-- Witness for the amended C5 at a trigger phrase and at a non-report text. -/
theorem C5_trigger_and_reject_witness :
    parse_report_intent ⟨2024, 6⟩ ("Report".toList) = some (2024, 6) ∧
    parse_report_intent ⟨2024, 6⟩ ("hello world".toList) = none :=
  ⟨(C5_trigger_and_reject ⟨2024, 6⟩ _).1 (by decide),
   (C5_trigger_and_reject ⟨2024, 6⟩ _).2 (by decide) (by rfl)⟩

/-- C6: whenever the Report Intent Resolver returns a non-sentinel intent, the
month is in [1,12]; numeric dates with an out-of-range month — `report 13`,
`report 2025-13` — yield NotAReport rather than a defaulted month. -/
theorem C6_month_in_range :
    (∀ (now : NowDate) (text : List Char) (y m : Nat),
        1 ≤ now.month → now.month ≤ 12 →
        parse_report_intent now text = some (y, m) → 1 ≤ m ∧ m ≤ 12) ∧
    (∀ now : NowDate, parse_report_intent now ("report 13".toList) = none) ∧
    (∀ now : NowDate, parse_report_intent now ("report 2025-13".toList) = none) := by
  refine ⟨?_, fun _ => rfl, fun _ => rfl⟩
  intro now text y m h1 h2 h
  unfold parse_report_intent at h
  dsimp only at h
  split at h
  · simp only [Option.some.injEq, Prod.mk.injEq] at h
    obtain ⟨-, hm⟩ := h
    subst hm
    exact ⟨h1, h2⟩
  · split at h
    · exact absurd h (by simp)
    · split at h
      · split at h
        · simp only [Option.some.injEq, Prod.mk.injEq] at h
          obtain ⟨-, hm⟩ := h
          subst hm
          omega
        · exact absurd h (by simp)
      · split at h
        · split at h
          · simp only [Option.some.injEq, Prod.mk.injEq] at h
            obtain ⟨-, hm⟩ := h
            subst hm
            omega
          · exact absurd h (by simp)
        · exact absurd h (by simp)

/-- Witness for C6 at a concrete resolved report request. -/
theorem C6_month_in_range_witness :
    1 ≤ 3 ∧ 3 ≤ 12 :=
  C6_month_in_range.1 ⟨2024, 6⟩ ("report 3".toList) 2024 3
    (by decide) (by decide) (by rfl)

/-! ### Lemmas about the aggregation of `format_report` -/

theorem catTotal_dictAdd (d : List (List Char × ℚ)) (k : List Char) (v : ℚ)
    (c : List Char) :
    catTotal (dictAdd d k v) c = catTotal d c + (if k == c then v else 0) := by
  induction d with
  | nil =>
    simp only [dictAdd, catTotal]
    by_cases h : k == c
    · simp [h]
    · simp [h]
  | cons hd tl ih =>
    obtain ⟨k', v'⟩ := hd
    simp only [dictAdd]
    by_cases hk : k' == k
    · have hk' : k' = k := by simpa using hk
      subst hk'
      simp only [hk, if_true, catTotal]
      by_cases hc : k' == c
      · simp [hc, add_comm]
      · simp [hc]
    · simp only [hk, Bool.false_eq_true, if_false, catTotal]
      by_cases hc : k' == c
      · have hc' : k' = c := by simpa using hc
        have hkc : (k == c) = false := by
          rw [beq_eq_false_iff_ne]
          intro he
          rw [he, ← hc'] at hk
          simp at hk
        simp [hc, hkc]
      · simp [hc, ih]

theorem catTotal_foldl (es : List ExpenseEntry) (d : List (List Char × ℚ))
    (c : List Char) :
    catTotal (es.foldl (fun d e => dictAdd d e.category e.amount) d) c =
      catTotal d c +
        ((es.filter (fun e => e.category == c)).map (fun e => e.amount)).sum := by
  induction es generalizing d with
  | nil => simp
  | cons e es ih =>
    simp only [List.foldl_cons, ih, catTotal_dictAdd, List.filter_cons]
    by_cases hc : e.category == c
    · simp only [hc, if_true, List.map_cons, List.sum_cons]
      ring
    · simp only [hc, Bool.false_eq_true, if_false]
      ring

theorem catTotal_by_cat (es : List ExpenseEntry) (c : List Char) :
    catTotal (by_cat es) c =
      ((es.filter (fun e => e.category == c)).map (fun e => e.amount)).sum := by
  have h := catTotal_foldl es [] c
  simpa [by_cat, catTotal] using h

theorem sum_dictAdd (d : List (List Char × ℚ)) (k : List Char) (v : ℚ) :
    ((dictAdd d k v).map (fun p => p.2)).sum = (d.map (fun p => p.2)).sum + v := by
  induction d with
  | nil => simp [dictAdd]
  | cons hd tl ih =>
    obtain ⟨k', v'⟩ := hd
    simp only [dictAdd]
    by_cases hk : k' == k
    · simp only [hk, if_true, List.map_cons, List.sum_cons]
      ring
    · simp only [hk, Bool.false_eq_true, if_false, List.map_cons, List.sum_cons, ih]
      ring

theorem sum_by_cat_foldl (es : List ExpenseEntry) (d : List (List Char × ℚ)) :
    ((es.foldl (fun d e => dictAdd d e.category e.amount) d).map (fun p => p.2)).sum =
      (d.map (fun p => p.2)).sum + (es.map (fun e => e.amount)).sum := by
  induction es generalizing d with
  | nil => simp
  | cons e es ih =>
    simp only [List.foldl_cons, ih, sum_dictAdd, List.map_cons, List.sum_cons]
    ring

theorem descByTotal_trans (a b c : List Char × ℚ) :
    descByTotal a b → descByTotal b c → descByTotal a c := by
  simp only [descByTotal, decide_eq_true_eq]
  exact fun h1 h2 => le_trans h2 h1

theorem descByTotal_total (a b : List Char × ℚ) :
    descByTotal a b || descByTotal b a := by
  simp only [descByTotal]
  rcases le_total a.2 b.2 with h | h <;> simp [h]

theorem sorted_format_top (es : List ExpenseEntry) :
    List.Pairwise (fun a b => b.2 ≤ a.2)
      ((by_cat es).mergeSort descByTotal) := by
  have hs : List.Pairwise (fun a b => descByTotal a b = true)
      ((by_cat es).mergeSort descByTotal) :=
    List.sorted_mergeSort (fun a b c => descByTotal_trans a b c)
      (fun a b => descByTotal_total a b) (by_cat es)
  exact hs.imp (fun h => by simpa [descByTotal] using h)

theorem mergeSort_pair {α : Type} {le : α → α → Bool} {a b : α}
    (h : le a b = false) : List.mergeSort [a, b] le = [b, a] := by
  rw [List.mergeSort]
  simp [List.splitInTwo, List.splitAt_eq, List.merge, h]

/-- C7: the Report Aggregator computes per-category totals as the sum of the
amounts of that category, independently of record order; displays categories
in descending order of total; computes the grand total as the sum of all
record amounts (equal to the sum of the per-category totals, not the record
count); truncates the display to the top-5 categories by total; and on the
spec's example `\x7bfood: 30, food: 20, transport: 90\x7d` yields totals
food 50 and transport 90, grand total 140, with transport ranked first. -/
theorem C7_aggregation :
    (∀ (es : List ExpenseEntry) (c : List Char),
        catTotal (by_cat es) c =
          ((es.filter (fun e => e.category == c)).map (fun e => e.amount)).sum) ∧
    (∀ es es' : List ExpenseEntry, es.Perm es' →
        ∀ c, catTotal (by_cat es) c = catTotal (by_cat es') c) ∧
    (∀ es, List.Pairwise (fun a b => b.2 ≤ a.2) (format_report es).top) ∧
    (∀ es, (format_report es).total_amount = ((by_cat es).map (fun p => p.2)).sum) ∧
    (∀ es, (format_report es).top.length ≤ 5 ∧
        ∀ pq ∈ by_cat es, pq ∉ (format_report es).top →
          ∀ ab ∈ (format_report es).top, pq.2 ≤ ab.2) ∧
    format_report
        [⟨"d1".toList, "food".toList, "USD".toList, 30⟩,
         ⟨"d2".toList, "food".toList, "USD".toList, 20⟩,
         ⟨"d3".toList, "transport".toList, "USD".toList, 90⟩] =
      ⟨140, [("transport".toList, 90), ("food".toList, 50)]⟩ := by
  refine ⟨catTotal_by_cat, ?_, ?_, ?_, ?_, ?_⟩
  · intro es es' hperm c
    rw [catTotal_by_cat, catTotal_by_cat]
    exact ((hperm.filter _).map _).sum_eq
  · intro es
    exact List.Pairwise.sublist (List.take_sublist _ _) (sorted_format_top es)
  · intro es
    have h := sum_by_cat_foldl es []
    simp only [List.map_nil, List.sum_nil, zero_add] at h
    simpa [format_report, by_cat] using h.symm
  · intro es
    refine ⟨List.length_take_le _ _, ?_⟩
    intro pq hpq hnot ab hab
    have hmem : pq ∈ (by_cat es).mergeSort descByTotal :=
      List.mem_mergeSort.mpr hpq
    have hp := sorted_format_top es
    rw [← List.take_append_drop 5 ((by_cat es).mergeSort descByTotal)] at hp hmem
    have hcross := (List.pairwise_append.mp hp).2.2
    have hdrop : pq ∈ ((by_cat es).mergeSort descByTotal).drop 5 := by
      rcases List.mem_append.mp hmem with h | h
      · exact absurd h hnot
      · exact h
    exact hcross ab hab pq hdrop
  · have hb : by_cat
        [⟨"d1".toList, "food".toList, "USD".toList, 30⟩,
         ⟨"d2".toList, "food".toList, "USD".toList, 20⟩,
         ⟨"d3".toList, "transport".toList, "USD".toList, (90 : ℚ)⟩] =
        [("food".toList, (30 : ℚ) + 20), ("transport".toList, (90 : ℚ))] := rfl
    have h50 : (30 : ℚ) + 20 = 50 := by norm_num
    rw [h50] at hb
    have hle : descByTotal ("food".toList, (50 : ℚ))
        ("transport".toList, (90 : ℚ)) = false := by
      simp only [descByTotal, decide_eq_false_iff_not]
      norm_num
    have htop : (format_report
        [⟨"d1".toList, "food".toList, "USD".toList, 30⟩,
         ⟨"d2".toList, "food".toList, "USD".toList, 20⟩,
         ⟨"d3".toList, "transport".toList, "USD".toList, 90⟩]).top =
        [("transport".toList, (90 : ℚ)), ("food".toList, (50 : ℚ))] := by
      simp only [format_report]
      rw [hb, mergeSort_pair hle]
      rfl
    have htot : (format_report
        [⟨"d1".toList, "food".toList, "USD".toList, 30⟩,
         ⟨"d2".toList, "food".toList, "USD".toList, 20⟩,
         ⟨"d3".toList, "transport".toList, "USD".toList, 90⟩]).total_amount
        = 140 := by
      simp only [format_report, List.map_cons, List.map_nil, List.sum_cons,
        List.sum_nil]
      norm_num
    have hext : ∀ r : Report, r.total_amount = 140 →
        r.top = [("transport".toList, (90 : ℚ)), ("food".toList, (50 : ℚ))] →
        r = ⟨140, [("transport".toList, 90), ("food".toList, 50)]⟩ := by
      intro r h1 h2
      cases r
      simp_all
    exact hext _ htot htop

/-- Witness for C7's order-independence conjunct on a concrete permutation. -/
theorem C7_aggregation_witness :
    catTotal (by_cat
      [⟨"d1".toList, "food".toList, "USD".toList, 30⟩,
       ⟨"d3".toList, "transport".toList, "USD".toList, 90⟩]) ("food".toList) =
    catTotal (by_cat
      [⟨"d3".toList, "transport".toList, "USD".toList, 90⟩,
       ⟨"d1".toList, "food".toList, "USD".toList, 30⟩]) ("food".toList) :=
  C7_aggregation.2.1 _ _ (List.Perm.swap _ _ _) ("food".toList)

end FinApp
